import Mathlib

/-!
Verification development for the BOC-KD multi-student knowledge-distillation
model core (src/models/Resnet.py).

Shallow embedding conventions:
* Tensor-valued computations of the underlying ML framework (convolutions,
  batch normalization, pooling) are kept abstract: a student tail is a record
  of functions between abstract feature types, mirroring the modules the
  Python class owns.  The controller logic (channel schedule, the forward
  loop of the ensemble, freezing, weight filtering) is translated statement
  by statement from the source.
* Python exceptions (IndexError, ValueError, NotImplementedError, NameError)
  are modelled with Except String.
* A logits tensor is modelled as a flat list of integer-modelled scalar
  values; torch.sum over the stacked student axis becomes an elementwise
  zipWith sum.
* Python computes int(c * (float(N - j) / N)).  The channel constants in use
  (128, 256, 512) are powers of two, so the IEEE product is an exact scaling
  of the correctly rounded quotient and the truncation agrees with exact
  integer floor division for every representable size; the embedding uses
  Nat division c * (N - j) / N.
-/

/-- A logits tensor (the class dimension of one batch element, flattened),
with scalar values modelled exactly by integers. -/
abbrev Logits := List Int

/-- src/models/Resnet.py, depth_channel_computer (lines 43-74).
The Python for-append loop over range(no_students) is written as a map over
List.range.  original_channels is indexed at 0, 1, 2; the only call site
(BIO_Resnet.__init__) passes the 3-element default [128, 256, 512], so the
List.getD total indexing is never out of range on reachable inputs.
The else branch raises IndexError("No blocks can only be 1,2 or 3"). -/
def depth_channel_computer (no_blocks no_students : Nat)
    (original_channels : List Nat) : Except String (List (List Nat)) :=
  if no_blocks = 1 then
    .ok ((List.range no_students).map (fun j =>
      [original_channels.getD 0 0,
       original_channels.getD 1 0,
       original_channels.getD 2 0 * (no_students - j) / no_students]))
  else if no_blocks = 2 then
    .ok ((List.range no_students).map (fun j =>
      [original_channels.getD 0 0,
       original_channels.getD 1 0 * (no_students - j) / no_students,
       original_channels.getD 2 0 * (no_students - j) / no_students]))
  else if no_blocks = 3 then
    .ok ((List.range no_students).map (fun j =>
      [original_channels.getD 0 0 * (no_students - j) / no_students,
       original_channels.getD 1 0 * (no_students - j) / no_students,
       original_channels.getD 2 0 * (no_students - j) / no_students]))
  else
    .error "No blocks can only be 1,2 or 3"

/-- The channel-schedule row as the specification words it (section 3 of the
spec): scale the last no_blocks stage widths of the 3-stage base schedule by
the integer-truncated factor (N - j) / N, leave the earlier stages at full
width.  Stated independently of the source function so the two can be
compared. -/
def spec_channelScheduleRow (no_blocks N j : Nat) (ch : List Nat) : List Nat :=
  (List.range 3).map (fun k =>
    if 3 - no_blocks ≤ k then ch.getD k 0 * (N - j) / N else ch.getD k 0)

/-- Static description of an nn.Conv2d module (the data the constructors in
the source pass to the framework; the tensor computation itself is
external). -/
structure Conv2dSpec where
  in_planes : Nat
  out_planes : Nat
  kernel_size : Nat
  stride : Nat
  padding : Nat
  groups : Nat
  dilation : Nat
  bias : Bool
deriving DecidableEq, Repr

/-- src/models/Resnet.py, conv3x3 (lines 32-35). -/
def conv3x3 (in_planes out_planes stride groups dilation : Nat) : Conv2dSpec :=
  { in_planes := in_planes, out_planes := out_planes, kernel_size := 3,
    stride := stride, padding := dilation, groups := groups,
    dilation := dilation, bias := false }

/-- src/models/Resnet.py, conv1x1 (lines 38-40). -/
def conv1x1 (in_planes out_planes stride : Nat) : Conv2dSpec :=
  { in_planes := in_planes, out_planes := out_planes, kernel_size := 1,
    stride := stride, padding := 0, groups := 1, dilation := 1, bias := false }

/-- The module layout a successful BasicBlock.__init__ produces (the bn
fields record the width passed to the norm layer). -/
structure BasicBlock where
  conv1 : Conv2dSpec
  bn1 : Nat
  conv2 : Conv2dSpec
  bn2 : Nat
  stride : Nat
  has_downsample : Bool
deriving DecidableEq, Repr

/-- src/models/Resnet.py, BasicBlock.__init__ (lines 81-97).  The two
validation raises (ValueError for groups/base_width, NotImplementedError for
dilation) are checked in source order; downsample is recorded as presence of
the optional module. -/
def BasicBlock.init (inplanes planes stride : Nat) (downsample : Bool)
    (groups base_width dilation : Nat) : Except String BasicBlock :=
  if groups ≠ 1 ∨ base_width ≠ 64 then
    .error "BasicBlock only supports groups=1 and base_width=64"
  else if dilation > 1 then
    .error "Dilation > 1 not supported in BasicBlock"
  else
    .ok { conv1 := conv3x3 inplanes planes stride 1 1, bn1 := planes,
          conv2 := conv3x3 planes planes 1 1 1, bn2 := planes,
          stride := stride, has_downsample := downsample }

/-- The configuration state Base_Resnet.__init__ establishes before building
its layer modules (the conv/norm/pool tensor modules themselves are
framework objects, kept as static specs or omitted). -/
structure Base_ResnetCfg where
  inplanes : Nat
  dilation : Nat
  groups : Nat
  base_width : Nat
  conv1 : Conv2dSpec
  replace_stride_with_dilation : List Bool
deriving DecidableEq, Repr

/-- src/models/Resnet.py, Base_Resnet.__init__ validation and configuration
(lines 165-190).  A None argument defaults to [False, False, False]; a
sequence of length other than 3 raises ValueError.  The layer1 construction
via _make_layer is a framework-module build and is not needed by any claim,
so only the configuration data is recorded. -/
def Base_Resnet_init (groups width_per_group : Nat)
    (replace_stride_with_dilation : Option (List Bool)) :
    Except String Base_ResnetCfg :=
  let rswd := replace_stride_with_dilation.getD [false, false, false]
  if rswd.length ≠ 3 then
    .error "replace_stride_with_dilation should be None or a 3-element tuple"
  else
    .ok { inplanes := 64, dilation := 1, groups := groups,
          base_width := width_per_group,
          conv1 := { in_planes := 3, out_planes := 64, kernel_size := 7,
                     stride := 2, padding := 3, groups := 1, dilation := 1,
                     bias := false },
          replace_stride_with_dilation := rswd }

/-- src/models/Resnet.py, Resnet_Student (lines 249-340).  The student tail
owns three residual stages, a pooling module and a linear classifier; each is
an abstract function between the abstract feature types Y (output of the
shared Base) and F (intermediate feature maps).  layer2/3/4 are the stages
built in __init__, avgpool the AdaptiveAvgPool2d module, flatten models
torch.flatten(x, 1), fc the Linear head producing the logits. -/
structure Resnet_Student (Y F : Type) where
  layer2 : Y → F
  layer3 : F → F
  layer4 : F → F
  avgpool : F → F
  flatten : F → F
  fc : F → Logits

/-- src/models/Resnet.py, Resnet_Student._forward_impl (lines 326-337):
returns the final logits together with the list [x1, x2, x3] of the three
intermediate stage outputs. -/
def Resnet_Student.forward_impl {Y F : Type} (s : Resnet_Student Y F) (x : Y) :
    Logits × List F :=
  let x1 := s.layer2 x
  let x2 := s.layer3 x1
  let x3 := s.layer4 x2
  let p := s.avgpool x3
  let fl := s.flatten p
  let x_out := s.fc fl
  (x_out, [x1, x2, x3])

/-- Stage-1 intermediate representation of a student (x1 in
Resnet_Student._forward_impl). -/
def stage1_rep {Y F : Type} (s : Resnet_Student Y F) (y : Y) : F := s.layer2 y

/-- Stage-2 intermediate representation of a student (x2 in
Resnet_Student._forward_impl). -/
def stage2_rep {Y F : Type} (s : Resnet_Student Y F) (y : Y) : F :=
  s.layer3 (stage1_rep s y)

/-- Stage-3 intermediate representation of a student (x3 in
Resnet_Student._forward_impl). -/
def stage3_rep {Y F : Type} (s : Resnet_Student Y F) (y : Y) : F :=
  s.layer4 (stage2_rep s y)

/-- src/models/Resnet.py, BIO_Resnet (lines 343-424).  The ensemble owns the
shared Base (its forward as an abstract function X to Y), the requires_grad
flags of the Base parameters and of the student parameters (the mutable
autograd state the freeze operation acts on), the student tails, and the
contribution-weight tensor of line 390 (one weight 1/no_students per
student). -/
structure BIO_Resnet (X Y F : Type) where
  no_students : Nat
  no_blocks : Nat
  Base_Resnet : X → Y
  base_requires_grad : List Bool
  student_models : List (Resnet_Student Y F)
  student_requires_grad : List Bool
  weights : List Rat

/-- src/models/Resnet.py, BIO_Resnet.base_freezer (lines 393-397): every
Base parameter whose requires_grad flag is set has it cleared; parameters
outside the Base are not visited. -/
def BIO_Resnet.base_freezer {X Y F : Type} (m : BIO_Resnet X Y F) :
    BIO_Resnet X Y F :=
  { m with base_requires_grad :=
      m.base_requires_grad.map (fun rg => if rg then false else rg) }

/-- src/models/Resnet.py, BIO_Resnet.__init__ (lines 348-391): compute the
depth-channel schedule (raising for an invalid no_blocks before any student
is built), build the Base, optionally freeze it, build one student per
schedule row, and create the contribution-weight tensor
(1/no_students) * ones([1, no_students, 1]).  The framework-level module
construction is abstracted: base is the forward function of the built Base,
base_flags / student_flags are the requires_grad flags the built modules
carry, and studentBuilder builds a student tail from a schedule row. -/
def BIO_Resnet.init {X Y F : Type} (base : X → Y) (base_flags : List Bool)
    (studentBuilder : List Nat → Resnet_Student Y F)
    (student_flags : List Bool) (Base_freeze : Bool)
    (no_students no_blocks : Nat) : Except String (BIO_Resnet X Y F) := do
  let Depth_channels_list ←
    depth_channel_computer no_blocks no_students [128, 256, 512]
  let m : BIO_Resnet X Y F :=
    { no_students := no_students, no_blocks := no_blocks,
      Base_Resnet := base, base_requires_grad := base_flags,
      student_models := Depth_channels_list.map studentBuilder,
      student_requires_grad := student_flags,
      weights := List.replicate no_students ((1 : Rat) / (no_students : Rat)) }
  .ok (if Base_freeze then m.base_freezer else m)

/-- The mutable accumulator state of the forward loop of
BIO_Resnet._forward_impl: Student_final_outs, the stacked
Combined_student_outs (a Python local that is unbound before the first
iteration, hence Option), and the per-stage groups
Student_intermmediate_reps. -/
structure ForwardState (F : Type) where
  Student_final_outs : List Logits
  Combined_student_outs : Option (List Logits)
  Student_intermmediate_reps : List (List F)

/-- The inner loop "for j in range(self.no_blocks):
Student_intermmediate_reps[j].append(Inter_reps[j])" of
BIO_Resnet._forward_impl (lines 414-415): walk the no_blocks groups in
order, appending the matching entry of Inter_reps; running out of Inter_reps
entries is a Python IndexError. -/
def append_reps {F : Type} : List (List F) → List F →
    Except String (List (List F))
  | [], _ => .ok []
  | g :: gs, r :: rs => do
      let tl ← append_reps gs rs
      .ok ((g ++ [r]) :: tl)
  | _ :: _, [] => .error "IndexError: list index out of range"

/-- One iteration of the student loop of BIO_Resnet._forward_impl
(lines 406-415): run student i on the shared Base output, append its logits
to Student_final_outs, unsqueeze/cat them onto Combined_student_outs (the
i == 0 case is the iteration in which Combined_student_outs is still
unbound), and append its intermediate representations groupwise. -/
def BIO_forward_step {Y F : Type} (st : ForwardState F)
    (s : Resnet_Student Y F) (y : Y) : Except String (ForwardState F) := do
  let out := s.forward_impl y
  let Final_out := out.1
  let Inter_reps := out.2
  let new_reps ← append_reps st.Student_intermmediate_reps Inter_reps
  .ok { Student_final_outs := st.Student_final_outs ++ [Final_out],
        Combined_student_outs := some (match st.Combined_student_outs with
          | none => [Final_out]
          | some c => c ++ [Final_out]),
        Student_intermmediate_reps := new_reps }

/-- The indexing "self.student_models[i] for i in range(self.no_students)"
of BIO_Resnet._forward_impl (line 406-407): fetch the first n students by
index, a missing index being a Python IndexError. -/
def selectStudents {Y F : Type} (models : List (Resnet_Student Y F)) :
    Nat → Except String (List (Resnet_Student Y F))
  | 0 => .ok []
  | n + 1 => do
      let front ← selectStudents models n
      match models.get? n with
      | some s => .ok (front ++ [s])
      | none => .error "IndexError: list index out of range"

/-- torch.sum(Combined_student_outs, dim=1): summing the stacked
(batch, students, classes) tensor over the student axis is the elementwise
sum of the stacked logits tensors. -/
def torch_sum_dim1 : List Logits → Logits
  | [] => []
  | t :: ts => ts.foldl (fun acc u => List.zipWith (· + ·) acc u) t

/-- .squeeze(1) on the summed (batch, classes) tensor: a squeeze removes a
dimension only when it has size one and never changes the stored values, so
on the flat value-list model it is the identity reshape. -/
def torch_squeeze1 (t : Logits) : Logits := t

/-- src/models/Resnet.py, BIO_Resnet._forward_impl (lines 399-421): run the
Base once, loop over the students accumulating logits, the stacked tensor
and the per-stage groups, then prepend the summed teacher signal. -/
def BIO_Resnet.forward_impl {X Y F : Type} (m : BIO_Resnet X Y F) (x : X) :
    Except String (List Logits × List (List F)) := do
  let x1 := m.Base_Resnet x
  let ss ← selectStudents m.student_models m.no_students
  let st ← ss.foldlM (fun st s => BIO_forward_step st s x1)
      { Student_final_outs := [], Combined_student_outs := none,
        Student_intermmediate_reps := List.replicate m.no_blocks [] }
  match st.Combined_student_outs with
  | none => .error "NameError: name Combined_student_outs is not defined"
  | some Combined =>
      let Teacher_out := torch_squeeze1 (torch_sum_dim1 Combined)
      .ok (Teacher_out :: st.Student_final_outs, st.Student_intermmediate_reps)

/-- src/models/Resnet.py, BIO_Resnet.forward (lines 423-424). -/
def BIO_Resnet.forward {X Y F : Type} (m : BIO_Resnet X Y F) (x : X) :
    Except String (List Logits × List (List F)) :=
  m.forward_impl x

/-- The logits each student produces on the shared Base output, in student
order (the Final_out values of the forward loop). -/
def student_logits {X Y F : Type} (m : BIO_Resnet X Y F) (x : X) :
    List Logits :=
  m.student_models.map (fun s => (s.forward_impl (m.Base_Resnet x)).1)

/-- The per-stage grouping the forward loop accumulates: group j collects
the stage-(j+1) intermediate representation of every student in student
order, one group per configured block. -/
def stage_groups {X Y F : Type} (m : BIO_Resnet X Y F) (x : X) :
    List (List F) :=
  [m.student_models.map (fun s => stage1_rep s (m.Base_Resnet x)),
   m.student_models.map (fun s => stage2_rep s (m.Base_Resnet x)),
   m.student_models.map (fun s => stage3_rep s (m.Base_Resnet x))].take
    m.no_blocks

/-- Substring search on character lists: does the needle occur as a
contiguous run of the haystack (Python "needle in haystack" on str). -/
def substr_at : List Char → List Char → Bool
  | needle, [] => needle.isEmpty
  | needle, c :: rest => needle.isPrefixOf (c :: rest) || substr_at needle rest

/-- Python "f in key" for strings. -/
def contains_sub (key f : String) : Bool := substr_at f.data key.data

/-- The inner flag loop of pretrained_weight_formatter (lines 436-439):
K starts True and is cleared when any of the four component names occurs in
the key. -/
def keep_key (key : String) : Bool :=
  ["layer2", "layer3", "layer4", "fc"].foldl
    (fun K f => if contains_sub key f then false else K) true

/-- src/models/Resnet.py, pretrained_weight_formatter (lines 427-444).
Overall_model_dict is only bound when Arch == "Resnet18" (the torch.load of
the checkpoint file is external input, passed here as the ordered key-value
list resnet18_checkpoint); for every other architecture the key iteration
hits an unbound local, a Python NameError.  base_weights is built in
iteration order from the keys whose flag loop leaves K set. -/
def pretrained_weight_formatter {W : Type} (Arch : String) (progress : Bool)
    (resnet18_checkpoint : List (String × W)) :
    Except String (List (String × W)) :=
  let Overall_model_dict : Option (List (String × W)) :=
    if Arch = "Resnet18" then some resnet18_checkpoint else none
  match Overall_model_dict with
  | none => .error "NameError: name Overall_model_dict is not defined"
  | some d =>
      .ok (d.foldl (fun bw kv => if keep_key kv.1 then bw ++ [kv] else bw) [])

/-- The operations the core exposes on a constructed ensemble for the rest
of the run: the one-time freeze and forward passes.  A forward pass reads
the model and returns outputs without touching any parameter flag. -/
inductive CoreOp (X : Type) where
  | base_freezer : CoreOp X
  | forward (x : X) : CoreOp X

/-- Effect of a core operation on the model state. -/
def applyOp {X Y F : Type} (m : BIO_Resnet X Y F) : CoreOp X → BIO_Resnet X Y F
  | .base_freezer => m.base_freezer
  | .forward _ => m

/-- Run a sequence of core operations. -/
def runOps {X Y F : Type} (m : BIO_Resnet X Y F) (ops : List (CoreOp X)) :
    BIO_Resnet X Y F :=
  ops.foldl applyOp m

/-- All requires_grad flags in a parameter set are cleared. -/
def all_frozen (flags : List Bool) : Bool := flags.all (fun rg => rg == false)

/-- The successful result of the channel-schedule computation with the base
widths [128, 256, 512] (empty on the error branch); lets schedule properties
be stated without an existential. -/
def dcc_rows (nb N : Nat) : List (List Nat) :=
  ((depth_channel_computer nb N [128, 256, 512]).toOption).getD []

/-- Every stage width of every student in a schedule is strictly positive. -/
def schedule_all_positive (L : List (List Nat)) : Bool :=
  L.all (fun row => row.all (fun w => decide (0 < w)))

/-- A concrete student tail over unit feature types whose classifier emits
the logits [1, 2]; used to evaluate the controller on explicit inputs. -/
def demoStudentA : Resnet_Student Unit Unit :=
  { layer2 := fun _ => (), layer3 := fun _ => (), layer4 := fun _ => (),
    avgpool := fun u => u, flatten := fun u => u, fc := fun _ => [1, 2] }

/-- A second concrete student tail, with classifier logits [10, 20]. -/
def demoStudentB : Resnet_Student Unit Unit :=
  { layer2 := fun _ => (), layer3 := fun _ => (), layer4 := fun _ => (),
    avgpool := fun u => u, flatten := fun u => u, fc := fun _ => [10, 20] }

/-- A concrete two-student ensemble with all three shrink blocks
configured. -/
def demoModel3 : BIO_Resnet Unit Unit Unit :=
  { no_students := 2, no_blocks := 3, Base_Resnet := fun _ => (),
    base_requires_grad := [true, false],
    student_models := [demoStudentA, demoStudentB],
    student_requires_grad := [true, true],
    weights := [(1 : Rat) / 2, (1 : Rat) / 2] }

/-- The ensemble BIO_Resnet.init builds from the demo components with
Base_freeze set: both Base parameter flags are cleared by the freeze. -/
def demoFrozen : BIO_Resnet Unit Unit Unit :=
  { no_students := 2, no_blocks := 3, Base_Resnet := fun _ => (),
    base_requires_grad := [false, false],
    student_models := [demoStudentA, demoStudentA],
    student_requires_grad := [true],
    weights := List.replicate 2 ((1 : Rat) / ((2 : Nat) : Rat)) }

/-- A concrete checkpoint mapping containing shared-stem keys and keys of
every excluded component. -/
def demoCkpt : List (String × Nat) :=
  [("conv1.weight", 0), ("bn1.weight", 1), ("layer1.0.conv1.weight", 2),
   ("layer2.0.conv1.weight", 3), ("layer3.0.bn2.bias", 4),
   ("layer4.1.conv2.weight", 5), ("fc.weight", 6), ("fc.bias", 7)]

/-- The filtered base weights the formatter produces from demoCkpt. -/
def demoBW : List (String × Nat) :=
  [("conv1.weight", 0), ("bn1.weight", 1), ("layer1.0.conv1.weight", 2)]

/-- The stacking of the student logits produced by the unsqueeze/cat chain
starting from an accumulator value of Combined_student_outs. -/
def pushAll : Option (List Logits) → List Logits → Option (List Logits)
  | c, [] => c
  | none, t :: ts => pushAll (some [t]) ts
  | some c, t :: ts => pushAll (some (c ++ [t])) ts

/-- The per-stage columns the forward loop accumulates for a list of
students: processing the students in order conses their reps onto the
columns gathered for the remaining students. -/
def stageColumns {Y F : Type} (ss : List (Resnet_Student Y F)) (y : Y)
    (nb : Nat) : List (List F) :=
  match ss with
  | [] => List.replicate nb []
  | s :: rest =>
      List.zipWith (fun r c => r :: c) (s.forward_impl y).2
        (stageColumns rest y nb)

/-! ### Helper lemmas about the forward loop -/

theorem except_bind_ok {α β : Type} (a : α) (f : α → Except String β) :
    (Except.ok a >>= f) = f a := rfl

theorem except_pure_eq_ok {α : Type} (a : α) :
    (pure a : Except String α) = Except.ok a := rfl

/-- When every group has a matching entry in Inter_reps (the loop bound
no_blocks does not exceed the three reps a student returns), the groupwise
append succeeds and is a zipWith. -/
theorem append_reps_eq_zipWith {F : Type} :
    ∀ (groups : List (List F)) (reps : List F),
      groups.length ≤ reps.length →
      append_reps groups reps =
        .ok (List.zipWith (fun g r => g ++ [r]) groups reps) := by
  intro groups
  induction groups with
  | nil => intro reps _; cases reps <;> rfl
  | cons g gs ih =>
      intro reps h
      cases reps with
      | nil => simp at h
      | cons r rs =>
          simp only [List.length_cons, Nat.add_le_add_iff_right] at h
          simp [append_reps, ih rs h, List.zipWith, except_bind_ok]

theorem zipWith_append_singleton {F : Type} :
    ∀ (gs : List (List F)) (rs : List F) (cs : List (List F)),
      List.zipWith (fun a b => a ++ b)
          (List.zipWith (fun g r => g ++ [r]) gs rs) cs =
        List.zipWith (fun a b => a ++ b) gs
          (List.zipWith (fun r c => r :: c) rs cs) := by
  intro gs
  induction gs with
  | nil => intro rs cs; rfl
  | cons g gs ih =>
      intro rs cs
      cases rs with
      | nil => rfl
      | cons r rs =>
          cases cs with
          | nil => rfl
          | cons c cs => simp [List.zipWith, ih rs cs]

theorem zipWith_append_replicate_nil_right {F : Type} :
    ∀ (l : List (List F)),
      List.zipWith (fun a b => a ++ b) l (List.replicate l.length ([] : List F))
        = l := by
  intro l
  induction l with
  | nil => rfl
  | cons g gs ih => simp [List.replicate, List.zipWith, ih]

theorem zipWith_append_replicate_nil_left {F : Type} :
    ∀ (l : List (List F)),
      List.zipWith (fun a b => a ++ b) (List.replicate l.length ([] : List F)) l
        = l := by
  intro l
  induction l with
  | nil => rfl
  | cons g gs ih => simp [List.replicate, List.zipWith, ih]

theorem pushAll_some : ∀ (ts : List Logits) (c : List Logits),
    pushAll (some c) ts = some (c ++ ts) := by
  intro ts
  induction ts with
  | nil => intro c; simp [pushAll]
  | cons t ts ih => intro c; simp [pushAll, ih]

theorem pushAll_none_cons (t : Logits) (ts : List Logits) :
    pushAll none (t :: ts) = some (t :: ts) := by
  simp [pushAll, pushAll_some]

theorem selectStudents_take {Y F : Type}
    (models : List (Resnet_Student Y F)) :
    ∀ n, n ≤ models.length → selectStudents models n = .ok (models.take n) := by
  intro n
  induction n with
  | zero => intro _; rfl
  | succ k ih =>
      intro h
      have hk : k ≤ models.length := Nat.le_of_succ_le h
      have hlt : k < models.length := h
      have hsel : selectStudents models (k + 1) =
          (selectStudents models k >>= fun front =>
            match models.get? k with
            | some s => Except.ok (front ++ [s])
            | none =>
                Except.error "IndexError: list index out of range") := rfl
      rw [hsel, ih hk, except_bind_ok, List.get?_eq_getElem?,
        List.getElem?_eq_getElem hlt, List.take_succ,
        List.getElem?_eq_getElem hlt]
      rfl

theorem selectStudents_self {Y F : Type}
    (models : List (Resnet_Student Y F)) :
    selectStudents models models.length = .ok models := by
  rw [selectStudents_take models models.length (Nat.le_refl _), List.take_length]

theorem stageColumns_length {Y F : Type}
    (y : Y) (nb : Nat) (hnb : nb ≤ 3) :
    ∀ (ss : List (Resnet_Student Y F)), (stageColumns ss y nb).length = nb := by
  intro ss
  induction ss with
  | nil => simp [stageColumns]
  | cons s rest ih =>
      have h2 : (s.forward_impl y).2.length = 3 := rfl
      rw [stageColumns, List.length_zipWith, h2, ih]
      omega

/-- Characterization of the student loop of BIO_Resnet._forward_impl: from
any accumulator whose group list is no longer than the three reps each
student returns, the loop succeeds and appends, for each accumulator
component, the per-student data in student order. -/
theorem forward_fold_eq {Y F : Type} (y : Y) :
    ∀ (ss : List (Resnet_Student Y F)) (st : ForwardState F),
      st.Student_intermmediate_reps.length ≤ 3 →
      ss.foldlM (fun st s => BIO_forward_step st s y) st =
        .ok { Student_final_outs :=
                st.Student_final_outs ++ ss.map (fun s => (s.forward_impl y).1),
              Combined_student_outs :=
                pushAll st.Combined_student_outs
                  (ss.map (fun s => (s.forward_impl y).1)),
              Student_intermmediate_reps :=
                List.zipWith (fun a b => a ++ b) st.Student_intermmediate_reps
                  (stageColumns ss y st.Student_intermmediate_reps.length) } := by
  intro ss
  induction ss with
  | nil =>
      intro st h
      cases st with
      | mk fo co reps =>
          simp [List.foldlM, stageColumns, pushAll,
            zipWith_append_replicate_nil_right, except_pure_eq_ok]
  | cons s rest ih =>
      intro st h
      have hreps : (s.forward_impl y).2.length = 3 := by
        simp [Resnet_Student.forward_impl]
      have hlen : st.Student_intermmediate_reps.length ≤
          (s.forward_impl y).2.length := by omega
      have hstep : BIO_forward_step st s y =
          .ok { Student_final_outs :=
                  st.Student_final_outs ++ [(s.forward_impl y).1],
                Combined_student_outs := some
                  (match st.Combined_student_outs with
                   | none => [(s.forward_impl y).1]
                   | some c => c ++ [(s.forward_impl y).1]),
                Student_intermmediate_reps :=
                  List.zipWith (fun g r => g ++ [r])
                    st.Student_intermmediate_reps (s.forward_impl y).2 } := by
        simp [BIO_forward_step, append_reps_eq_zipWith _ _ hlen, except_bind_ok]
      have hmid : (List.zipWith (fun g r => g ++ [r])
          st.Student_intermmediate_reps (s.forward_impl y).2).length =
          st.Student_intermmediate_reps.length := by
        rw [List.length_zipWith, hreps]
        omega
      simp only [List.foldlM_cons, hstep, except_bind_ok]
      rw [ih _ (by rw [hmid]; exact h)]
      have hminval : st.Student_intermmediate_reps.length ⊓
          (s.forward_impl y).2.length =
          st.Student_intermmediate_reps.length := by
        rw [hreps]; exact Nat.min_eq_left h
      refine congrArg Except.ok ?_
      simp only [ForwardState.mk.injEq, List.length_zipWith, hminval,
        List.map_cons]
      refine ⟨by simp, ?_, ?_⟩
      · cases hco : st.Combined_student_outs with
        | none => simp [pushAll]
        | some c => simp [pushAll_some]
      · rw [zipWith_append_singleton]
        rfl

theorem stageColumns_one {Y F : Type} (y : Y) :
    ∀ (ss : List (Resnet_Student Y F)),
      stageColumns ss y 1 = [ss.map (fun s => stage1_rep s y)] := by
  intro ss
  induction ss with
  | nil => rfl
  | cons s rest ih => rw [stageColumns, ih]; rfl

theorem stageColumns_two {Y F : Type} (y : Y) :
    ∀ (ss : List (Resnet_Student Y F)),
      stageColumns ss y 2 =
        [ss.map (fun s => stage1_rep s y),
         ss.map (fun s => stage2_rep s y)] := by
  intro ss
  induction ss with
  | nil => rfl
  | cons s rest ih => rw [stageColumns, ih]; rfl

theorem stageColumns_three {Y F : Type} (y : Y) :
    ∀ (ss : List (Resnet_Student Y F)),
      stageColumns ss y 3 =
        [ss.map (fun s => stage1_rep s y),
         ss.map (fun s => stage2_rep s y),
         ss.map (fun s => stage3_rep s y)] := by
  intro ss
  induction ss with
  | nil => rfl
  | cons s rest ih => rw [stageColumns, ih]; rfl

theorem zipWith_append_replicate_nil_left_len {F : Type} (n : Nat)
    (l : List (List F)) (h : l.length = n) :
    List.zipWith (fun a b => a ++ b) (List.replicate n ([] : List F)) l = l := by
  subst h; exact zipWith_append_replicate_nil_left l

theorem stageColumns_eq_stage_groups {X Y F : Type} (m : BIO_Resnet X Y F)
    (x : X) (hnb : m.no_blocks = 1 ∨ m.no_blocks = 2 ∨ m.no_blocks = 3) :
    stageColumns m.student_models (m.Base_Resnet x) m.no_blocks =
      stage_groups m x := by
  rcases hnb with h | h | h <;>
    simp [stage_groups, h, stageColumns_one, stageColumns_two,
      stageColumns_three]

/-- Full characterization of BIO_Resnet._forward_impl on a model whose
student list matches no_students (as the constructor guarantees) and whose
no_blocks is one of the valid values 1, 2, 3: the forward pass succeeds and
returns the summed teacher logits followed by the per-student logits, with
the per-stage grouping. -/
theorem BIO_forward_impl_eq {X Y F : Type} (m : BIO_Resnet X Y F) (x : X)
    (hlen : m.student_models.length = m.no_students)
    (hnb : m.no_blocks = 1 ∨ m.no_blocks = 2 ∨ m.no_blocks = 3)
    (hN : 1 ≤ m.no_students) :
    m.forward_impl x =
      .ok (torch_sum_dim1 (student_logits m x) :: student_logits m x,
           stage_groups m x) := by
  have hnb3 : m.no_blocks ≤ 3 := by rcases hnb with h | h | h <;> omega
  have hsel : selectStudents m.student_models m.no_students =
      .ok m.student_models := by
    rw [← hlen]; exact selectStudents_self _
  have hfold := forward_fold_eq (m.Base_Resnet x) m.student_models
    { Student_final_outs := [], Combined_student_outs := none,
      Student_intermmediate_reps := List.replicate m.no_blocks [] }
    (by simpa using hnb3)
  have himpl : m.forward_impl x =
      (selectStudents m.student_models m.no_students >>= fun ss =>
        (ss.foldlM (fun st s => BIO_forward_step st s (m.Base_Resnet x))
          { Student_final_outs := [], Combined_student_outs := none,
            Student_intermmediate_reps := List.replicate m.no_blocks [] }
          >>= fun st =>
            match st.Combined_student_outs with
            | none =>
                Except.error "NameError: name Combined_student_outs is not defined"
            | some Combined =>
                Except.ok (torch_squeeze1 (torch_sum_dim1 Combined) ::
                  st.Student_final_outs, st.Student_intermmediate_reps))) := rfl
  obtain ⟨a, t, hm⟩ : ∃ a t, m.student_models = a :: t := by
    cases hm : m.student_models with
    | nil => rw [hm] at hlen; simp at hlen; omega
    | cons a t => exact ⟨a, t, rfl⟩
  have hpush : pushAll none (List.map
      (fun s => (s.forward_impl (m.Base_Resnet x)).1) m.student_models) =
      some (List.map (fun s => (s.forward_impl (m.Base_Resnet x)).1)
        m.student_models) := by
    rw [hm, List.map_cons, pushAll_none_cons]
  have hcols : (stageColumns m.student_models (m.Base_Resnet x)
      m.no_blocks).length = m.no_blocks :=
    stageColumns_length (m.Base_Resnet x) m.no_blocks hnb3 m.student_models
  have hgroups : List.zipWith (fun a b => a ++ b)
      (List.replicate m.no_blocks ([] : List F))
      (stageColumns m.student_models (m.Base_Resnet x) m.no_blocks) =
      stage_groups m x := by
    rw [zipWith_append_replicate_nil_left_len m.no_blocks _ hcols]
    exact stageColumns_eq_stage_groups m x hnb
  rw [himpl, hsel, except_bind_ok, hfold, except_bind_ok]
  simp only [List.nil_append, List.length_replicate]
  rw [hpush, hgroups]
  rfl

/-! ### Arithmetic helpers for the channel schedule -/

theorem scaled_mono (c N j : Nat) :
    c * (N - (j + 1)) / N ≤ c * (N - j) / N :=
  Nat.div_le_div_right
    (Nat.mul_le_mul_left c (Nat.sub_le_sub_left (Nat.le_succ j) N))

theorem scaled_pos (c N j : Nat) (hc : 128 ≤ c) (hN : 1 ≤ N)
    (hN128 : N ≤ 128) (hj : j < N) : 0 < c * (N - j) / N := by
  have h0 : 0 < N := hN
  have h1 : 1 ≤ N - j := by omega
  have h2 : N ≤ c * (N - j) := by
    calc N ≤ 128 := hN128
    _ ≤ c := hc
    _ = c * 1 := (Nat.mul_one c).symm
    _ ≤ c * (N - j) := Nat.mul_le_mul_left c h1
  exact (Nat.one_le_div_iff h0).mpr h2

theorem getD_range_map {α : Type} (N j : Nat) (f : Nat → α) (d : α)
    (h : j < N) : ((List.range N).map f).getD j d = f j := by
  rw [List.getD_eq_getElem?_getD, List.getElem?_map, List.getElem?_range h]
  rfl

/-! ### Claims -/

/-- C2: For every N >= 1 and no_blocks in 1, 2, 3 with base channel widths
[128, 256, 512], the channel schedule for student rank j scales exactly the
last no_blocks stage widths by the integer-truncated factor (N - j) / N and
leaves the earlier stages at full width; in particular for N = 5,
no_blocks = 3, student 0 gets the full widths [128, 256, 512] and student 4
gets the widths [25, 51, 102]. -/
theorem C2_schedule_matches_spec (N nb : Nat) (hN : 1 ≤ N)
    (hnb : nb = 1 ∨ nb = 2 ∨ nb = 3) :
    depth_channel_computer nb N [128, 256, 512] =
      .ok ((List.range N).map
        (fun j => spec_channelScheduleRow nb N j [128, 256, 512])) ∧
    (depth_channel_computer 3 5 [128, 256, 512]).map
        (fun L => (L.getD 0 [], L.getD 4 [])) =
      .ok ([128, 256, 512], [25, 51, 102]) := by
  refine ⟨?_, rfl⟩
  rcases hnb with rfl | rfl | rfl <;> rfl

/-- Witness for C2 at the concrete scenario N = 5, no_blocks = 3. -/
theorem C2_schedule_matches_spec_witness :
    ((1 : Nat) ≤ 5 ∧ ((3 : Nat) = 1 ∨ (3 : Nat) = 2 ∨ (3 : Nat) = 3)) ∧
    (depth_channel_computer 3 5 [128, 256, 512] =
      .ok ((List.range 5).map
        (fun j => spec_channelScheduleRow 3 5 j [128, 256, 512])) ∧
    (depth_channel_computer 3 5 [128, 256, 512]).map
        (fun L => (L.getD 0 [], L.getD 4 [])) =
      .ok ([128, 256, 512], [25, 51, 102])) :=
  ⟨⟨by decide, by decide⟩, C2_schedule_matches_spec 5 3 (by decide) (by decide)⟩

/-- C3 counterexample: with 129 students and no_blocks = 3 the integer
truncation reaches a zero stage width (student 128 gets the row [0, 1, 3]),
so the claimed strict positivity for every N >= 1 is false. -/
theorem C3_counterexample :
    (depth_channel_computer 3 129 [128, 256, 512]).map schedule_all_positive =
      .ok false ∧
    (depth_channel_computer 3 129 [128, 256, 512]).map
        (fun L => L.getD 128 []) = .ok [0, 1, 3] := ⟨rfl, rfl⟩

/-- C3 (amended): For every N >= 1 and no_blocks in 1, 2, 3, the channel
schedule is non-increasing in student rank; and provided N <= 128, every
stage width of every student is strictly positive (for larger N the integer
truncation can reach width 0, as the counterexample shows). -/
theorem C3_schedule_monotone_positive (N nb : Nat) (hN : 1 ≤ N)
    (hnb : nb = 1 ∨ nb = 2 ∨ nb = 3) :
    depth_channel_computer nb N [128, 256, 512] = .ok (dcc_rows nb N) ∧
    (dcc_rows nb N).length = N ∧
    (∀ j k, j + 1 < N → k < 3 →
      ((dcc_rows nb N).getD (j + 1) []).getD k 0 ≤
        ((dcc_rows nb N).getD j []).getD k 0) ∧
    (N ≤ 128 → ∀ row ∈ dcc_rows nb N, ∀ w ∈ row, 0 < w) := by
  rcases hnb with rfl | rfl | rfl
  · have hrows : dcc_rows 1 N =
        (List.range N).map (fun j => [128, 256, 512 * (N - j) / N]) := rfl
    refine ⟨rfl, ?_, ?_, ?_⟩
    · rw [hrows]; simp
    · intro j k hj hk
      rw [hrows, getD_range_map N (j + 1) _ _ (by omega),
        getD_range_map N j _ _ (by omega)]
      interval_cases k
      · exact Nat.le.refl
      · exact Nat.le.refl
      · exact scaled_mono 512 N j
    · intro hN128 row hrow w hw
      rw [hrows] at hrow
      rcases List.mem_map.mp hrow with ⟨j, hj, rfl⟩
      have hjN : j < N := List.mem_range.mp hj
      simp only [List.mem_cons, List.not_mem_nil, or_false] at hw
      rcases hw with rfl | rfl | rfl
      · decide
      · decide
      · exact scaled_pos 512 N j (by decide) hN hN128 hjN
  · have hrows : dcc_rows 2 N =
        (List.range N).map
          (fun j => [128, 256 * (N - j) / N, 512 * (N - j) / N]) := rfl
    refine ⟨rfl, ?_, ?_, ?_⟩
    · rw [hrows]; simp
    · intro j k hj hk
      rw [hrows, getD_range_map N (j + 1) _ _ (by omega),
        getD_range_map N j _ _ (by omega)]
      interval_cases k
      · exact Nat.le.refl
      · exact scaled_mono 256 N j
      · exact scaled_mono 512 N j
    · intro hN128 row hrow w hw
      rw [hrows] at hrow
      rcases List.mem_map.mp hrow with ⟨j, hj, rfl⟩
      have hjN : j < N := List.mem_range.mp hj
      simp only [List.mem_cons, List.not_mem_nil, or_false] at hw
      rcases hw with rfl | rfl | rfl
      · decide
      · exact scaled_pos 256 N j (by decide) hN hN128 hjN
      · exact scaled_pos 512 N j (by decide) hN hN128 hjN
  · have hrows : dcc_rows 3 N =
        (List.range N).map
          (fun j => [128 * (N - j) / N, 256 * (N - j) / N,
            512 * (N - j) / N]) := rfl
    refine ⟨rfl, ?_, ?_, ?_⟩
    · rw [hrows]; simp
    · intro j k hj hk
      rw [hrows, getD_range_map N (j + 1) _ _ (by omega),
        getD_range_map N j _ _ (by omega)]
      interval_cases k
      · exact scaled_mono 128 N j
      · exact scaled_mono 256 N j
      · exact scaled_mono 512 N j
    · intro hN128 row hrow w hw
      rw [hrows] at hrow
      rcases List.mem_map.mp hrow with ⟨j, hj, rfl⟩
      have hjN : j < N := List.mem_range.mp hj
      simp only [List.mem_cons, List.not_mem_nil, or_false] at hw
      rcases hw with rfl | rfl | rfl
      · exact scaled_pos 128 N j (by decide) hN hN128 hjN
      · exact scaled_pos 256 N j (by decide) hN hN128 hjN
      · exact scaled_pos 512 N j (by decide) hN hN128 hjN

/-- Witness for the amended C3 at N = 5, no_blocks = 3. -/
theorem C3_schedule_monotone_positive_witness :
    ((1 : Nat) ≤ 5 ∧ ((3 : Nat) = 1 ∨ (3 : Nat) = 2 ∨ (3 : Nat) = 3)) ∧
    (depth_channel_computer 3 5 [128, 256, 512] = .ok (dcc_rows 3 5) ∧
    (dcc_rows 3 5).length = 5 ∧
    (∀ j k, j + 1 < 5 → k < 3 →
      ((dcc_rows 3 5).getD (j + 1) []).getD k 0 ≤
        ((dcc_rows 3 5).getD j []).getD k 0) ∧
    ((5 : Nat) ≤ 128 → ∀ row ∈ dcc_rows 3 5, ∀ w ∈ row, 0 < w)) :=
  ⟨⟨by decide, by decide⟩,
   C3_schedule_monotone_positive 5 3 (by decide) (by decide)⟩

/-- C1: For every batch input and every configuration with N >= 1 students
(student list as built by the constructor, no_blocks a valid value), the
teacher output returned at index 0 of the ensemble forward pass equals the
elementwise sum over the stacked student axis (not the average) of the N
individual student logits tensors returned at indices 1..N. -/
theorem C1_teacher_is_sum (X Y F : Type) (m : BIO_Resnet X Y F) (x : X)
    (hlen : m.student_models.length = m.no_students)
    (hnb : m.no_blocks = 1 ∨ m.no_blocks = 2 ∨ m.no_blocks = 3)
    (hN : 1 ≤ m.no_students) :
    (m.forward_impl x).map (fun r => r.1) =
      .ok (torch_sum_dim1 (student_logits m x) :: student_logits m x) := by
  rw [BIO_forward_impl_eq m x hlen hnb hN]
  rfl

/-- Witness for C1 on the concrete two-student ensemble. -/
theorem C1_teacher_is_sum_witness :
    (demoModel3.student_models.length = demoModel3.no_students ∧
     (demoModel3.no_blocks = 1 ∨ demoModel3.no_blocks = 2 ∨
       demoModel3.no_blocks = 3) ∧
     1 ≤ demoModel3.no_students) ∧
    (demoModel3.forward_impl ()).map (fun r => r.1) =
      .ok (torch_sum_dim1 (student_logits demoModel3 ()) ::
        student_logits demoModel3 ()) :=
  ⟨⟨rfl, by decide, by decide⟩,
   C1_teacher_is_sum Unit Unit Unit demoModel3 () rfl (by decide) (by decide)⟩

/-- C5: For every configuration with N >= 1 students and every batch, the
list of logits returned by the ensemble forward pass has length exactly
N + 1, with the synthesized teacher signal at index 0 followed by the N
student logits in rank order. -/
theorem C5_outputs_length (X Y F : Type) (m : BIO_Resnet X Y F) (x : X)
    (hlen : m.student_models.length = m.no_students)
    (hnb : m.no_blocks = 1 ∨ m.no_blocks = 2 ∨ m.no_blocks = 3)
    (hN : 1 ≤ m.no_students) :
    (m.forward_impl x).map (fun r => r.1.length) = .ok (m.no_students + 1) ∧
    (m.forward_impl x).map (fun r => r.1.get? 0) =
      .ok (some (torch_sum_dim1 (student_logits m x))) ∧
    (m.forward_impl x).map (fun r => r.1.tail) = .ok (student_logits m x) := by
  rw [BIO_forward_impl_eq m x hlen hnb hN]
  refine ⟨?_, rfl, rfl⟩
  show Except.ok (torch_sum_dim1 (student_logits m x) ::
      student_logits m x).length = Except.ok (m.no_students + 1)
  simp [student_logits, hlen]

/-- Witness for C5 on the concrete two-student ensemble. -/
theorem C5_outputs_length_witness :
    (demoModel3.student_models.length = demoModel3.no_students ∧
     (demoModel3.no_blocks = 1 ∨ demoModel3.no_blocks = 2 ∨
       demoModel3.no_blocks = 3) ∧
     1 ≤ demoModel3.no_students) ∧
    ((demoModel3.forward_impl ()).map (fun r => r.1.length) =
      .ok (demoModel3.no_students + 1) ∧
    (demoModel3.forward_impl ()).map (fun r => r.1.get? 0) =
      .ok (some (torch_sum_dim1 (student_logits demoModel3 ()))) ∧
    (demoModel3.forward_impl ()).map (fun r => r.1.tail) =
      .ok (student_logits demoModel3 ())) :=
  ⟨⟨rfl, by decide, by decide⟩,
   C5_outputs_length Unit Unit Unit demoModel3 () rfl (by decide) (by decide)⟩

/-- C4 counterexample: an ensemble constructed with no_blocks = 1 (a valid
configuration) returns a per-stage grouping with exactly one group, not
three. -/
theorem C4_counterexample :
    ((BIO_Resnet.init (fun _ : Unit => ()) [true]
        (fun _ => demoStudentA) [true] false 2 1).bind
      (fun m => m.forward_impl ())).map (fun r => r.2.length) = .ok 1 ∧
    (1 : Nat) ≠ 3 := ⟨rfl, by decide⟩

/-- C4 (amended): For every configuration and batch, the second component of
the ensemble forward pass is a per-stage grouping with exactly no_blocks
groups (three exactly when no_blocks = 3), the first no_blocks of
[[stage1 of every student], [stage2 of every student],
[stage3 of every student]], each group listing the students in student
order. -/
theorem C4_stage_grouping (X Y F : Type) (m : BIO_Resnet X Y F) (x : X)
    (hlen : m.student_models.length = m.no_students)
    (hnb : m.no_blocks = 1 ∨ m.no_blocks = 2 ∨ m.no_blocks = 3)
    (hN : 1 ≤ m.no_students) :
    (m.forward_impl x).map (fun r => r.2) = .ok (stage_groups m x) ∧
    (m.forward_impl x).map (fun r => r.2.length) = .ok m.no_blocks ∧
    stage_groups m x =
      [m.student_models.map (fun s => stage1_rep s (m.Base_Resnet x)),
       m.student_models.map (fun s => stage2_rep s (m.Base_Resnet x)),
       m.student_models.map (fun s => stage3_rep s (m.Base_Resnet x))].take
        m.no_blocks := by
  rw [BIO_forward_impl_eq m x hlen hnb hN]
  refine ⟨rfl, ?_, rfl⟩
  show Except.ok (stage_groups m x).length = Except.ok m.no_blocks
  rcases hnb with h | h | h <;> simp [stage_groups, h]

/-- Witness for the amended C4 on the concrete two-student ensemble. -/
theorem C4_stage_grouping_witness :
    (demoModel3.student_models.length = demoModel3.no_students ∧
     (demoModel3.no_blocks = 1 ∨ demoModel3.no_blocks = 2 ∨
       demoModel3.no_blocks = 3) ∧
     1 ≤ demoModel3.no_students) ∧
    ((demoModel3.forward_impl ()).map (fun r => r.2) =
      .ok (stage_groups demoModel3 ()) ∧
    (demoModel3.forward_impl ()).map (fun r => r.2.length) =
      .ok demoModel3.no_blocks ∧
    stage_groups demoModel3 () =
      [demoModel3.student_models.map
        (fun s => stage1_rep s (demoModel3.Base_Resnet ())),
       demoModel3.student_models.map
        (fun s => stage2_rep s (demoModel3.Base_Resnet ())),
       demoModel3.student_models.map
        (fun s => stage3_rep s (demoModel3.Base_Resnet ()))].take
        demoModel3.no_blocks) :=
  ⟨⟨rfl, by decide, by decide⟩,
   C4_stage_grouping Unit Unit Unit demoModel3 () rfl (by decide) (by decide)⟩

/-- C7: The value returned by the ensemble forward pass does not depend on
the per-student contribution-weight vector: two ensembles identical except
for that weight vector produce identical outputs on every input, because
the weights are constructed but never multiplied into the teacher
aggregation. -/
theorem C7_weights_unused (X Y F : Type) (m : BIO_Resnet X Y F)
    (w w2 : List Rat) (x : X) :
    BIO_Resnet.forward_impl { m with weights := w } x =
      BIO_Resnet.forward_impl { m with weights := w2 } x := rfl

theorem except_bind_error {α β : Type} (e : String)
    (f : α → Except String β) :
    ((Except.error e : Except String α) >>= f) = .error e := rfl

theorem all_frozen_freeze_map :
    ∀ flags : List Bool,
      all_frozen (flags.map (fun rg => if rg then false else rg)) = true := by
  intro flags
  induction flags with
  | nil => rfl
  | cons b t ih => cases b <;> simpa [all_frozen] using ih

/-- C6: When Base freezing is configured, after construction every parameter
of the shared Base has its gradient-tracking flag cleared; no core operation
(further freezes or forward passes) re-enables it for the remainder of the
run; and freezing changes nothing outside the Base parameter flags. -/
theorem C6_freeze_invariant (X Y F : Type) :
    (∀ (base : X → Y) (bflags : List Bool)
        (sb : List Nat → Resnet_Student Y F) (sflags : List Bool)
        (N nb : Nat) (m : BIO_Resnet X Y F),
        BIO_Resnet.init base bflags sb sflags true N nb = .ok m →
        all_frozen m.base_requires_grad = true) ∧
    (∀ (m : BIO_Resnet X Y F) (ops : List (CoreOp X)),
        all_frozen m.base_requires_grad = true →
        all_frozen (runOps m ops).base_requires_grad = true) ∧
    (∀ m : BIO_Resnet X Y F,
        m.base_freezer.student_requires_grad = m.student_requires_grad ∧
        m.base_freezer.student_models = m.student_models ∧
        m.base_freezer.weights = m.weights ∧
        m.base_freezer.no_students = m.no_students ∧
        m.base_freezer.no_blocks = m.no_blocks) := by
  refine ⟨?_, ?_, ?_⟩
  · intro base bflags sb sflags N nb m h
    unfold BIO_Resnet.init at h
    cases hd : depth_channel_computer nb N [128, 256, 512] with
    | error e => rw [hd, except_bind_error] at h; exact absurd h (by simp)
    | ok dcl =>
        rw [hd, except_bind_ok] at h
        simp only [if_true, Except.ok.injEq] at h
        rw [← h]
        exact all_frozen_freeze_map bflags
  · intro m ops
    induction ops generalizing m with
    | nil => intro h; exact h
    | cons op rest ih =>
        intro h
        cases op with
        | base_freezer => exact ih _ (all_frozen_freeze_map _)
        | forward x => exact ih _ h
  · intro m
    exact ⟨rfl, rfl, rfl, rfl, rfl⟩

/-- Witness for C6 on a concretely constructed frozen ensemble. -/
theorem C6_freeze_invariant_witness :
    BIO_Resnet.init (fun _ : Unit => ()) [true, false] (fun _ => demoStudentA)
        [true] true 2 3 = .ok demoFrozen ∧
    all_frozen demoFrozen.base_requires_grad = true ∧
    all_frozen (runOps demoFrozen
      [CoreOp.forward (), CoreOp.base_freezer]).base_requires_grad = true ∧
    (demoFrozen.base_freezer.student_requires_grad =
        demoFrozen.student_requires_grad ∧
     demoFrozen.base_freezer.student_models = demoFrozen.student_models ∧
     demoFrozen.base_freezer.weights = demoFrozen.weights ∧
     demoFrozen.base_freezer.no_students = demoFrozen.no_students ∧
     demoFrozen.base_freezer.no_blocks = demoFrozen.no_blocks) :=
  ⟨rfl,
   (C6_freeze_invariant Unit Unit Unit).1 (fun _ => ()) [true, false]
     (fun _ => demoStudentA) [true] 2 3 demoFrozen rfl,
   (C6_freeze_invariant Unit Unit Unit).2.1 demoFrozen
     [CoreOp.forward (), CoreOp.base_freezer] rfl,
   (C6_freeze_invariant Unit Unit Unit).2.2 demoFrozen⟩

theorem foldl_append_filter {α : Type} (P : α → Bool) :
    ∀ (l acc : List α),
      l.foldl (fun bw kv => if P kv then bw ++ [kv] else bw) acc =
        acc ++ l.filter P := by
  intro l
  induction l with
  | nil => intro acc; simp
  | cons a t ih =>
      intro acc
      by_cases hp : P a = true
      · simp [List.foldl_cons, hp, ih, List.filter_cons]
      · simp only [Bool.not_eq_true] at hp
        simp [List.foldl_cons, hp, ih, List.filter_cons]

theorem keep_key_iff (key : String) :
    keep_key key = true ↔
      (contains_sub key "layer2" = false ∧ contains_sub key "layer3" = false ∧
       contains_sub key "layer4" = false ∧ contains_sub key "fc" = false) := by
  unfold keep_key
  cases h2 : contains_sub key "layer2" <;>
    cases h3 : contains_sub key "layer3" <;>
      cases h4 : contains_sub key "layer4" <;>
        cases h5 : contains_sub key "fc" <;>
          simp [List.foldl_cons, List.foldl_nil, h2, h3, h4, h5]

/-- C8: For every pretrained-weight mapping keyed by parameter name, the
filtered mapping loaded into the Base contains no key in which layer2,
layer3, layer4 or fc occurs, and contains every entry of the input mapping
whose key names none of those components. -/
theorem C8_filtered_weights (W : Type) (p : Bool)
    (ckpt bw : List (String × W))
    (h : pretrained_weight_formatter "Resnet18" p ckpt = .ok bw) :
    (∀ kv ∈ bw, contains_sub kv.1 "layer2" = false ∧
      contains_sub kv.1 "layer3" = false ∧
      contains_sub kv.1 "layer4" = false ∧
      contains_sub kv.1 "fc" = false) ∧
    (∀ kv ∈ ckpt, contains_sub kv.1 "layer2" = false →
      contains_sub kv.1 "layer3" = false →
      contains_sub kv.1 "layer4" = false →
      contains_sub kv.1 "fc" = false → kv ∈ bw) := by
  have hform : pretrained_weight_formatter "Resnet18" p ckpt =
      .ok (ckpt.foldl
        (fun bw kv => if keep_key kv.1 then bw ++ [kv] else bw) []) := rfl
  rw [hform] at h
  have hbw : bw = ckpt.filter (fun kv => keep_key kv.1) := by
    have h2 := h
    rw [foldl_append_filter] at h2
    simp only [List.nil_append, Except.ok.injEq] at h2
    exact h2.symm
  subst hbw
  constructor
  · intro kv hkv
    have hmem := List.mem_filter.mp hkv
    exact (keep_key_iff kv.1).mp hmem.2
  · intro kv hkv h2 h3 h4 h5
    exact List.mem_filter.mpr ⟨hkv, (keep_key_iff kv.1).mpr ⟨h2, h3, h4, h5⟩⟩

/-- Witness for C8 on a concrete checkpoint mapping. -/
theorem C8_filtered_weights_witness :
    pretrained_weight_formatter "Resnet18" true demoCkpt = .ok demoBW ∧
    ((∀ kv ∈ demoBW, contains_sub kv.1 "layer2" = false ∧
        contains_sub kv.1 "layer3" = false ∧
        contains_sub kv.1 "layer4" = false ∧
        contains_sub kv.1 "fc" = false) ∧
     (∀ kv ∈ demoCkpt, contains_sub kv.1 "layer2" = false →
        contains_sub kv.1 "layer3" = false →
        contains_sub kv.1 "layer4" = false →
        contains_sub kv.1 "fc" = false → kv ∈ demoBW)) :=
  ⟨rfl, C8_filtered_weights Nat true demoCkpt demoBW rfl⟩

/-- C9: Configuration errors are raised immediately at model-construction
time: a no_blocks outside 1, 2, 3 makes the channel-schedule computation and
the whole ensemble construction fail before any student is built; a Basic
block with groups different from 1 or base_width different from 64, or with
dilation above 1, fails; and a replace_stride_with_dilation sequence whose
length is not 3 fails. -/
theorem C9_construction_errors (X Y F : Type) :
    (∀ (no_blocks no_students : Nat) (original_channels : List Nat),
        no_blocks ≠ 1 → no_blocks ≠ 2 → no_blocks ≠ 3 →
        depth_channel_computer no_blocks no_students original_channels =
          .error "No blocks can only be 1,2 or 3") ∧
    (∀ (base : X → Y) (bflags : List Bool)
        (sb : List Nat → Resnet_Student Y F) (sflags : List Bool)
        (bf : Bool) (N nb : Nat), nb ≠ 1 → nb ≠ 2 → nb ≠ 3 →
        BIO_Resnet.init base bflags sb sflags bf N nb =
          .error "No blocks can only be 1,2 or 3") ∧
    (∀ (inplanes planes stride groups base_width dilation : Nat)
        (downsample : Bool), groups ≠ 1 ∨ base_width ≠ 64 →
        BasicBlock.init inplanes planes stride downsample groups base_width
          dilation =
          .error "BasicBlock only supports groups=1 and base_width=64") ∧
    (∀ (inplanes planes stride dilation : Nat) (downsample : Bool),
        dilation > 1 →
        BasicBlock.init inplanes planes stride downsample 1 64 dilation =
          .error "Dilation > 1 not supported in BasicBlock") ∧
    (∀ (groups width_per_group : Nat) (l : List Bool), l.length ≠ 3 →
        Base_Resnet_init groups width_per_group (some l) =
          .error
            "replace_stride_with_dilation should be None or a 3-element tuple") := by
  refine ⟨?_, ?_, ?_, ?_, ?_⟩
  · intro nb ns ch h1 h2 h3
    simp [depth_channel_computer, h1, h2, h3]
  · intro base bflags sb sflags bf N nb h1 h2 h3
    unfold BIO_Resnet.init
    rw [(by simp [depth_channel_computer, h1, h2, h3] :
      depth_channel_computer nb N [128, 256, 512] =
        .error "No blocks can only be 1,2 or 3"), except_bind_error]
  · intro inplanes planes stride groups base_width dilation downsample h
    rw [BasicBlock.init, if_pos h]
  · intro inplanes planes stride dilation downsample h
    rw [BasicBlock.init, if_neg (by simp), if_pos h]
  · intro groups width_per_group l h
    simp [Base_Resnet_init, h]

/-- Witness for C9 at concrete invalid configurations. -/
theorem C9_construction_errors_witness :
    ((4 : Nat) ≠ 1 ∧ (4 : Nat) ≠ 2 ∧ (4 : Nat) ≠ 3 ∧ (0 : Nat) ≠ 1 ∧
      (0 : Nat) ≠ 2 ∧ (0 : Nat) ≠ 3 ∧ ((2 : Nat) ≠ 1 ∨ (64 : Nat) ≠ 64) ∧
      (2 : Nat) > 1 ∧ ([false] : List Bool).length ≠ 3) ∧
    depth_channel_computer 4 2 [128, 256, 512] =
      .error "No blocks can only be 1,2 or 3" ∧
    BIO_Resnet.init (fun _ : Unit => ()) [true] (fun _ => demoStudentA)
        [true] false 2 0 = .error "No blocks can only be 1,2 or 3" ∧
    BasicBlock.init 64 64 1 false 2 64 1 =
      .error "BasicBlock only supports groups=1 and base_width=64" ∧
    BasicBlock.init 64 64 1 false 1 64 2 =
      .error "Dilation > 1 not supported in BasicBlock" ∧
    Base_Resnet_init 1 64 (some [false]) =
      .error "replace_stride_with_dilation should be None or a 3-element tuple" :=
  ⟨by decide,
   (C9_construction_errors Unit Unit Unit).1 4 2 [128, 256, 512]
     (by decide) (by decide) (by decide),
   (C9_construction_errors Unit Unit Unit).2.1 (fun _ => ()) [true]
     (fun _ => demoStudentA) [true] false 2 0
     (by decide) (by decide) (by decide),
   (C9_construction_errors Unit Unit Unit).2.2.1 64 64 1 2 64 1 false
     (by decide),
   (C9_construction_errors Unit Unit Unit).2.2.2.1 64 64 1 2 false
     (by decide),
   (C9_construction_errors Unit Unit Unit).2.2.2.2 1 64 [false] (by decide)⟩

/-- C10: Requesting pretrained weights for any architecture other than
Resnet18 fails: the checkpoint local is only bound when the Arch argument
equals Resnet18, so for every other architecture name the key iteration
hits an unbound name instead of returning a filtered mapping. -/
theorem C10_non_resnet18_unbound (W : Type) (Arch : String) (progress : Bool)
    (ckpt : List (String × W)) (h : Arch ≠ "Resnet18") :
    pretrained_weight_formatter Arch progress ckpt =
      .error "NameError: name Overall_model_dict is not defined" := by
  simp [pretrained_weight_formatter, h]

/-- Witness for C10 at the concrete architecture name Resnet34. -/
theorem C10_non_resnet18_unbound_witness :
    ("Resnet34" ≠ "Resnet18") ∧
    pretrained_weight_formatter "Resnet34" true ([] : List (String × Nat)) =
      .error "NameError: name Overall_model_dict is not defined" :=
  ⟨by decide, C10_non_resnet18_unbound Nat "Resnet34" true [] (by decide)⟩
